import Mathlib

/-!
Shallow embedding of the load-cell Arduino sketch of this repository
(the `HX711`-based weighing instrument: globals `scale` and `avg_count`,
the `setup()` diagnostic sequence, and the `loop()` command dispatch).

The sketch's own code (`setup`, `loop`, the constants) is embedded from
the source.  The HX711 library methods (`read`, `read_average`,
`get_value`, `get_units`, `tare`, `set_scale`) and the Arduino
`Serial.parseFloat` routine are called by the sketch but their code is
not part of the repository; those are modelled from the spec, and each
such definition carries a doc comment saying so.

Numeric model: raw ADC conversions are integers; the derived quantities
(averages, scaled units) are rationals, the exact-arithmetic idealization
of the sketch's `float` values (the spec states the computations as exact
arithmetic, "within floating-point tolerance").
-/

namespace H2Lantern

/-- The environment: the stream of raw ADC conversions the load cell
would deliver; `raws i` is the value of the `i`-th conversion performed
since power-up. -/
structure Env where
  raws : Nat → Int

/-- Instrument state: the tare `offset` and calibration `scale` of the
HX711 object (the sketch's global `scale` mirrors the latter), plus
`pos`, the number of raw conversions consumed so far (the cursor into
`Env.raws`, which makes the number and order of `read_raw` calls
observable). -/
structure InstrState where
  offset : ℚ
  scale : ℚ
  pos : Nat
deriving DecidableEq

/-- Initial state: `scale` starts at 1.0 (sketch global `float scale = 1.`),
`offset` defaults to 0 before the first tare, no conversions consumed. -/
def initState : InstrState := ⟨0, 1, 0⟩

/-- The sketch's `int const avg_count = 10`, the fixed averaging count of
the `'R'` and `'A'` commands.  It is a `const` in the source, so it is a
fixed constant here and cannot be modified during execution. -/
def avg_count : Nat := 10

/-- Modelled from the spec: the internal averaging count used by
`HX711::tare()` (the sketch calls `loadcell.tare()` with no argument; the
library default is not in the repository).  Per the spec it is a small
fixed count distinct from the command-loop default `avg_count`. -/
def tare_count : Nat := 5

/-- Modelled from the spec: `HX711::read()` — return the next raw ADC
conversion, consuming it from the stream. -/
def read_raw (env : Env) (s : InstrState) : Int × InstrState :=
  (env.raws s.pos, { s with pos := s.pos + 1 })

/-- Take `n` raw conversions back-to-back and return their sum (the
accumulation loop inside `read_average`). -/
def readTimes (env : Env) : Nat → InstrState → ℚ × InstrState
  | 0, s => (0, s)
  | n + 1, s =>
      let p := read_raw env s
      let q := readTimes env n p.2
      ((p.1 : ℚ) + q.1, q.2)

/-- Modelled from the spec: `HX711::read_average(times)` — call
`read()` exactly `times` times sequentially and return the unweighted
arithmetic mean. -/
def read_average (env : Env) (times : Nat) (s : InstrState) : ℚ × InstrState :=
  let q := readTimes env times s
  (q.1 / (times : ℚ), q.2)

/-- Modelled from the spec: `HX711::get_value(times)` — the averaged
reading minus the current tare offset. -/
def get_value (env : Env) (times : Nat) (s : InstrState) : ℚ × InstrState :=
  let q := read_average env times s
  (q.1 - s.offset, q.2)

/-- Modelled from the spec: `HX711::get_units(times)` — the
tare-corrected averaged reading divided by the current scale. -/
def get_units (env : Env) (times : Nat) (s : InstrState) : ℚ × InstrState :=
  let q := get_value env times s
  (q.1 / s.scale, q.2)

/-- Modelled from the spec: `HX711::tare()` — set the offset to a fresh
averaged reading taken with the fixed internal count `tare_count`. -/
def tare (env : Env) (s : InstrState) : InstrState :=
  let q := read_average env tare_count s
  { q.2 with offset := q.1 }

/-- Modelled from the spec: `HX711::set_scale(value)` — set `scale` to
`value` unconditionally, no validation. -/
def set_scale (s : InstrState) (v : ℚ) : InstrState :=
  { s with scale := v }

/-- Leading decimal digits of a character list, and the remainder. -/
def takeDigits : List Char → List Char × List Char
  | [] => ([], [])
  | c :: rest =>
      if c.isDigit then
        let q := takeDigits rest
        (c :: q.1, q.2)
      else ([], c :: rest)

/-- Numeric value of a digit string, most significant first. -/
def digitsVal (ds : List Char) : Nat :=
  ds.foldl (fun a c => 10 * a + (c.toNat - 48)) 0

/-- Modelled from the spec: the scanning core of `Serial.parseFloat`.
A `'C'` argument is "a floating-point literal immediately following on
the same input stream": an optional minus sign, integer digits, an
optional decimal point with fraction digits.  Returns the parsed value
and the unconsumed remainder, or `none` when no literal (no digit at
all) is present at the front of the stream. -/
def scanFloat (l : List Char) : Option (ℚ × List Char) :=
  let sgn : Bool × List Char :=
    match l with
    | '-' :: t => (true, t)
    | _ => (false, l)
  let ip := takeDigits sgn.2
  let fp : List Char × List Char :=
    match ip.2 with
    | '.' :: t => takeDigits t
    | _ => ([], ip.2)
  if ip.1.isEmpty ∧ fp.1.isEmpty then none
  else
    let mag : ℚ := (digitsVal ip.1 : ℚ) + (digitsVal fp.1 : ℚ) / (10 : ℚ) ^ fp.1.length
    some (if sgn.1 then -mag else mag, fp.2)

/-- Modelled from the spec: `Serial.parseFloat` — parse a float literal
from the front of the input; a malformed argument (no parseable number)
yields the implementation-defined numeric default zero, not a signaled
failure. -/
def parseFloat (l : List Char) : ℚ × List Char :=
  match scanFloat l with
  | some vr => vr
  | none => (0, l)

/-- One line printed by the command loop. -/
inductive Out where
  /-- `'C'`: "Scale calibrated: " followed by the new scale value. -/
  | scaleCal : ℚ → Out
  /-- `'R'`: the unit-scaled reading (printed to one decimal place). -/
  | unitsVal : ℚ → Out
  /-- `'A'`: the raw averaged reading. -/
  | avgVal : ℚ → Out
deriving DecidableEq

/-- One iteration of the sketch's `loop()` with a command byte
available: the five-branch `switch` on the command character.  Returns
the new instrument state, the unconsumed input (only `'C'` consumes
further bytes, for its float argument) and the lines printed. -/
def stepCmd (env : Env) (s : InstrState) (c : Char) (rest : List Char) :
    InstrState × List Char × List Out :=
  if c = 'C' then
    let vr := parseFloat rest
    (set_scale s vr.1, vr.2, [Out.scaleCal vr.1])
  else if c = 'R' then
    let u := get_units env avg_count s
    (u.2, rest, [Out.unitsVal u.1])
  else if c = 'T' then
    (tare env s, rest, [])
  else if c = 'A' then
    let a := read_average env avg_count s
    (a.2, rest, [Out.avgVal a.1])
  else (s, rest, [])

/-- The command-dispatch loop on a buffered input, fuel-indexed: the
fuel only bounds the recursion and never binds as long as it is at
least the input length (`parseFloat` consumes only from the input). -/
def runLoopF (env : Env) : Nat → InstrState → List Char → List Out × InstrState
  | 0, s, _ => ([], s)
  | _ + 1, s, [] => ([], s)
  | f + 1, s, c :: rest =>
      let st := stepCmd env s c rest
      let r := runLoopF env f st.1 st.2.1
      (st.2.2 ++ r.1, r.2)

/-- The sketch's `loop()` driven over a whole buffered input: processes
the bytes strictly in order, one command at a time. -/
def runLoop (env : Env) (s : InstrState) (l : List Char) : List Out × InstrState :=
  runLoopF env l.length s l

/-- Side condition for the amended scale invariant, fuel-indexed in sync
with `runLoopF`: every `'C'` command occurring in the input has an
argument that parses to a nonzero value. -/
def goodCalibF : Nat → List Char → Bool
  | 0, _ => true
  | _ + 1, [] => true
  | f + 1, c :: rest =>
      if c = 'C' then
        (decide ((parseFloat rest).1 ≠ 0)) && goodCalibF f (parseFloat rest).2
      else goodCalibF f rest

/-- Every `'C'` command in the input `l` carries an argument parsing to
a nonzero value. -/
def goodCalib (l : List Char) : Bool := goodCalibF l.length l

/-- One line printed by `setup()`. -/
inductive SetupOut where
  /-- "Initializing scale". -/
  | initMsg : SetupOut
  /-- "  + Averaging: " followed by `avg_count`. -/
  | avgMsg : Nat → SetupOut
  /-- " + read: " followed by one raw ADC reading. -/
  | rawRead : Int → SetupOut
  /-- " + read average: " followed by the average of 20 readings. -/
  | avgRead : ℚ → SetupOut
  /-- " + get value: " followed by the 5-reading average minus the tare offset. -/
  | valueRead : ℚ → SetupOut
  /-- " + get units: " followed by the tare-corrected 5-reading average over the scale. -/
  | unitsRead : ℚ → SetupOut
  /-- "Commands: (R)ead, (T)are, (C)alibrate, (A)DC". -/
  | commandsMsg : SetupOut
deriving DecidableEq

/-- The sketch's `setup()`: the labelled diagnostic sequence — one
`read()`, one `read_average(20)`, one `get_value(5)`, one
`get_units(5)` — printed in order before the command loop starts. -/
def setup (env : Env) : List SetupOut × InstrState :=
  let r := read_raw env initState
  let a := read_average env 20 r.2
  let v := get_value env 5 a.2
  let u := get_units env 5 v.2
  ([SetupOut.initMsg, SetupOut.avgMsg avg_count,
    SetupOut.rawRead r.1, SetupOut.avgRead a.1,
    SetupOut.valueRead v.1, SetupOut.unitsRead u.1,
    SetupOut.commandsMsg], u.2)

end H2Lantern

namespace H2Lantern

/-- The raw-sample accumulation loop: after `n` back-to-back `read_raw`
calls from state `s` the sum is that of samples `s.pos, …, s.pos+n-1`
and the cursor has advanced by exactly `n`. -/
theorem readTimes_spec (env : Env) :
    ∀ (n : Nat) (s : InstrState),
      readTimes env n s =
        (∑ i ∈ Finset.range n, (env.raws (s.pos + i) : ℚ),
          { s with pos := s.pos + n }) := by
  intro n
  induction n with
  | zero => intro s; simp [readTimes]
  | succ n ih =>
    intro s
    simp only [readTimes, read_raw, ih]
    rw [Prod.mk.injEq]
    constructor
    · rw [Finset.sum_range_succ']
      have h0 : ∀ i : Nat, s.pos + 1 + i = s.pos + (i + 1) := by omega
      simp [h0, add_comm]
    · have : s.pos + 1 + n = s.pos + (n + 1) := by omega
      simp [this]

theorem read_average_fst (env : Env) (n : Nat) (s : InstrState) :
    (read_average env n s).1 = (∑ i ∈ Finset.range n, (env.raws (s.pos + i) : ℚ)) / n := by
  simp [read_average, readTimes_spec]

theorem read_average_snd (env : Env) (n : Nat) (s : InstrState) :
    (read_average env n s).2 = { s with pos := s.pos + n } := by
  simp [read_average, readTimes_spec]

theorem get_value_snd (env : Env) (n : Nat) (s : InstrState) :
    (get_value env n s).2 = { s with pos := s.pos + n } := by
  simp [get_value, read_average_snd]

theorem get_units_snd (env : Env) (n : Nat) (s : InstrState) :
    (get_units env n s).2 = { s with pos := s.pos + n } := by
  simp [get_units, get_value_snd]

theorem tare_eq (env : Env) (s : InstrState) :
    tare env s = { s with offset := (read_average env tare_count s).1,
                          pos := s.pos + tare_count } := by
  simp [tare, read_average_snd]

end H2Lantern

namespace H2Lantern

theorem stepCmd_scale_of_ne (env : Env) (s : InstrState) (c : Char) (rest : List Char)
    (hC : c ≠ 'C') :
    (stepCmd env s c rest).1.scale = s.scale ∧ (stepCmd env s c rest).2.1 = rest := by
  by_cases hR : c = 'R' <;> by_cases hT : c = 'T' <;> by_cases hA : c = 'A' <;>
    simp [stepCmd, hC, hR, hT, hA, get_units_snd, read_average_snd, tare_eq]

theorem runLoopF_scale_ne_zero (env : Env) :
    ∀ (f : Nat) (s : InstrState) (l : List Char),
      goodCalibF f l = true → s.scale ≠ 0 → ((runLoopF env f s l).2).scale ≠ 0 := by
  intro f
  induction f with
  | zero => intro s l _ hs; simpa [runLoopF] using hs
  | succ f ih =>
    intro s l hg hs
    cases l with
    | nil => simpa [runLoopF] using hs
    | cons c rest =>
      by_cases hC : c = 'C'
      · subst hC
        simp only [goodCalibF, eq_self_iff_true, if_true, Bool.and_eq_true,
          decide_eq_true_eq] at hg
        have hrec := ih (set_scale s (parseFloat rest).1) (parseFloat rest).2 hg.2
          (by simpa [set_scale] using hg.1)
        simpa [runLoopF, stepCmd, set_scale] using hrec
      · have hstep := stepCmd_scale_of_ne env s c rest hC
        have hg' : goodCalibF f rest = true := by
          rw [goodCalibF] at hg; simpa [hC] using hg
        have hrec := ih (stepCmd env s c rest).1 rest hg' (by rw [hstep.1]; exact hs)
        simpa [runLoopF, hstep.2] using hrec

section
attribute [local semireducible] Rat.add Rat.mul Rat.inv Rat.sub

/-- C1: with every raw sample 100 and offset 0, the input
`['C','1','0','.','0','\n','R']` first installs scale 10.0 (already once
the `'C'` command and its argument are consumed) and the `'R'` command
then reports 10.0. -/
theorem calibrate_then_read_scenario :
    (stepCmd ⟨fun _ => 100⟩ initState 'C' ['1', '0', '.', '0', '\n', 'R']).1.scale = 10 ∧
    (runLoop ⟨fun _ => 100⟩ initState ['C', '1', '0', '.', '0', '\n', 'R']).1
      = [Out.scaleCal 10, Out.unitsVal 10] := by
  decide

/-- C2: `get_units n` is `get_value n` divided by the scale, and with
scale 1 and offset 0 it coincides with `read_average n`. -/
theorem get_units_div_scale (env : Env) (n : Nat) (s : InstrState) (_hn : 0 < n) :
    (get_units env n s).1 = (get_value env n s).1 / s.scale ∧
    (s.scale = 1 → s.offset = 0 → (get_units env n s).1 = (read_average env n s).1) := by
  refine ⟨rfl, fun h1 h0 => ?_⟩
  simp [get_units, get_value, h1, h0]

/-- Witness for C2 at `n = 2`. -/
theorem get_units_div_scale_witness :
    0 < 2 ∧ (get_units ⟨fun _ => 7⟩ 2 initState).1 = (read_average ⟨fun _ => 7⟩ 2 initState).1 :=
  ⟨by decide, (get_units_div_scale ⟨fun _ => 7⟩ 2 initState (by decide)).2 rfl rfl⟩

/-- C3: `read_average n` consumes exactly `n` raw samples back-to-back
(the cursor advances by `n`) and returns their unweighted arithmetic
mean. -/
theorem read_average_mean (env : Env) (n : Nat) (s : InstrState) (_hn : 0 < n) :
    (read_average env n s).1 = (∑ i ∈ Finset.range n, (env.raws (s.pos + i) : ℚ)) / n ∧
    (read_average env n s).2.pos = s.pos + n :=
  ⟨read_average_fst env n s, by rw [read_average_snd]⟩

/-- Witness for C3 at `n = 3`. -/
theorem read_average_mean_witness :
    0 < 3 ∧ (read_average ⟨fun i => (i : Int)⟩ 3 initState).2.pos = initState.pos + 3 :=
  ⟨by decide, (read_average_mean ⟨fun i => (i : Int)⟩ 3 initState (by decide)).2⟩

/-- C4 counterexample: the input `['C','0']` is processed from the
initial state and leaves the instrument with scale 0, so "scale is never
zero in any reachable state" fails on the code (set_scale installs any
value unconditionally). -/
theorem scale_zero_reachable :
    ((runLoop ⟨fun _ => 0⟩ initState ['C', '0']).2).scale = 0 := by decide

/-- C4 amended: starting from the initial state (scale 1.0), the scale
is nonzero in every state reached by a command sequence in which every
`'C'` command's argument parses to a nonzero value. -/
theorem scale_ne_zero_of_good_calib (env : Env) (l : List Char) (h : goodCalib l = true) :
    ((runLoop env initState l).2).scale ≠ 0 :=
  runLoopF_scale_ne_zero env l.length initState l h (by decide)

/-- Witness for the amended C4 on the input `['C','2']`. -/
theorem scale_ne_zero_of_good_calib_witness :
    goodCalib ['C', '2'] = true ∧ ((runLoop ⟨fun _ => 3⟩ initState ['C', '2']).2).scale ≠ 0 :=
  ⟨by decide, scale_ne_zero_of_good_calib ⟨fun _ => 3⟩ ['C', '2'] (by decide)⟩

/-- C5: per dispatched byte, the offset is mutated only by `'T'` and the
scale only by `'C'`; any byte outside `{C,R,T,A}` leaves the state, the
pending input and the output untouched. -/
theorem step_frame (env : Env) (s : InstrState) (c : Char) (rest : List Char) :
    (c ≠ 'T' → (stepCmd env s c rest).1.offset = s.offset) ∧
    (c ≠ 'C' → (stepCmd env s c rest).1.scale = s.scale) ∧
    (c ≠ 'C' → c ≠ 'R' → c ≠ 'T' → c ≠ 'A' → stepCmd env s c rest = (s, rest, [])) := by
  refine ⟨fun hT => ?_, fun hC => (stepCmd_scale_of_ne env s c rest hC).1,
    fun hC hR hT hA => ?_⟩
  · by_cases hC : c = 'C' <;> by_cases hR : c = 'R' <;> by_cases hA : c = 'A' <;>
      simp [stepCmd, hC, hR, hT, hA, set_scale, get_units_snd, read_average_snd]
  · simp [stepCmd, hC, hR, hT, hA]

/-- Witness for C5 at the unrecognized byte `'Z'`. -/
theorem step_frame_witness :
    stepCmd ⟨fun _ => 9⟩ initState 'Z' ['R'] = (initState, ['R'], []) :=
  (step_frame ⟨fun _ => 9⟩ initState 'Z' ['R']).2.2
    (by decide) (by decide) (by decide) (by decide)

/-- C6: taring with raw samples constant at 50 prints nothing, and a
subsequent `'R'` with the same samples and scale 1.0 reports 0.0. -/
theorem tare_then_read_scenario :
    (stepCmd ⟨fun _ => 50⟩ initState 'T' ['R']).2.2 = [] ∧
    (runLoop ⟨fun _ => 50⟩ initState ['T', 'R']).1 = [Out.unitsVal 0] := by
  decide

/-- C7: a `'C'` byte not followed by a parseable float parses to the
numeric default zero, installs it as the scale, and the loop carries on
with the very bytes that follow. -/
theorem calibrate_malformed (env : Env) (s : InstrState) (rest : List Char)
    (h : scanFloat rest = none) :
    stepCmd env s 'C' rest = ({ s with scale := 0 }, rest, [Out.scaleCal 0]) ∧
    runLoop env s ('C' :: rest) =
      (Out.scaleCal 0 :: (runLoop env { s with scale := 0 } rest).1,
        (runLoop env { s with scale := 0 } rest).2) := by
  have hp : parseFloat rest = (0, rest) := by simp [parseFloat, h]
  constructor
  · simp [stepCmd, hp, set_scale]
  · simp [runLoop, runLoopF, stepCmd, hp, set_scale]

/-- Witness for C7 on the malformed tail `['Z']`. -/
theorem calibrate_malformed_witness :
    scanFloat ['Z'] = none ∧
    stepCmd ⟨fun _ => 4⟩ initState 'C' ['Z']
      = ({ initState with scale := 0 }, ['Z'], [Out.scaleCal 0]) :=
  ⟨by decide, (calibrate_malformed ⟨fun _ => 4⟩ initState ['Z'] (by decide)).1⟩

/-- C8: `setup` performs, in order, one raw read (sample 0), one
`read_average(20)` (samples 1–20), one `get_value(5)` (samples 21–25)
and one `get_units(5)` (samples 26–30), printing each with its label,
and consumes exactly 31 raw conversions in total. -/
theorem setup_sequence (env : Env) :
    setup env =
      ([SetupOut.initMsg, SetupOut.avgMsg avg_count,
        SetupOut.rawRead (env.raws 0),
        SetupOut.avgRead ((∑ i ∈ Finset.range 20, (env.raws (1 + i) : ℚ)) / 20),
        SetupOut.valueRead ((∑ i ∈ Finset.range 5, (env.raws (21 + i) : ℚ)) / 5),
        SetupOut.unitsRead ((∑ i ∈ Finset.range 5, (env.raws (26 + i) : ℚ)) / 5),
        SetupOut.commandsMsg],
        { offset := 0, scale := 1, pos := 31 }) := by
  simp [setup, read_raw, get_units, get_value, read_average, readTimes_spec, initState]

/-- C9: `tare()` averages over its own fixed internal count, which is a
constant distinct from the command-loop default `avg_count`. -/
theorem tare_uses_distinct_count (env : Env) (s : InstrState) :
    (tare env s).pos = s.pos + tare_count ∧
    (tare env s).offset = (read_average env tare_count s).1 ∧
    tare_count ≠ avg_count :=
  ⟨by simp [tare_eq], by simp [tare_eq], by decide⟩

/-- C10: the `'R'` and `'A'` commands both average with the one constant
`avg_count = 10` (each consumes exactly 10 raw samples), and `avg_count`
is a fixed constant that nothing modifies. -/
theorem commands_use_avg_count_ten (env : Env) (s : InstrState) (rest : List Char) :
    avg_count = 10 ∧
    stepCmd env s 'R' rest
      = ((get_units env avg_count s).2, rest, [Out.unitsVal (get_units env avg_count s).1]) ∧
    stepCmd env s 'A' rest
      = ((read_average env avg_count s).2, rest, [Out.avgVal (read_average env avg_count s).1]) ∧
    (stepCmd env s 'R' rest).1.pos = s.pos + 10 ∧
    (stepCmd env s 'A' rest).1.pos = s.pos + 10 := by
  refine ⟨rfl, rfl, rfl, ?_, ?_⟩ <;>
    simp [stepCmd, get_units_snd, read_average_snd, avg_count]

end

end H2Lantern
